import Mathlib

/-!
Verification development for the UnifiedOpenAccessArt repository.

Shallow embedding of the production data model
(`data_processing/models/data_models.py`), the museum-processor framework
(`data_processing/processors/base_processor.py`), the Cleveland processor
(`data_processing/processors/cleveland_art_processor.py`), the dataset
manager (`data_processing/dataset_manager.py`), the production merger
(`data_processing/merge_datasets.py`) and the relational query API
(`backend/main.py`), together with theorems settling the specification's
claims about them.

Conventions of the embedding:
* Python exceptions are modelled with `Except String`; a pydantic
  validation error on construction is an `Except.error`.
* A pandas cell is `Option String` (`none` models `NaN`, i.e. `pd.isna`);
  a row is an association list from column name to cell, in column order.
* SQL `NULL` is `Option.none`; a SQL comparison with a `NULL` operand is
  `UNKNOWN`, which a `WHERE` clause treats as not selected, so the
  embedded predicates return `false` in that case (sound here because the
  query's conditions use only `AND`/`OR`, never `NOT`).
* Python regular expressions are embedded as explicit scanners over
  character lists with the same leftmost-match/backtracking behavior as
  the concrete patterns used by the source (the relevant inputs are
  ASCII, so `str.lower`/`\d`/`\s` are modelled with the ASCII
  `Char.toLower`/`Char.isDigit`/`Char.isWhitespace`).
-/

namespace UOAA

/-! ## Production data model (`data_processing/models/data_models.py`) -/

/-- `DateType` enumeration from `data_processing/models/data_models.py`. -/
inductive DateType where
  | year
  | yearRange
  | century
  | unknown
deriving DecidableEq, Repr

/-- `DateInfo` pydantic model: date classification with positive years and
an explicit BCE flag. -/
structure DateInfo where
  type : DateType
  display_text : String
  start_year : Option Int
  end_year : Option Int
  is_bce : Bool
deriving DecidableEq, Repr

/-- Pydantic construction of a `DateInfo`, running the
`DateInfo.validate_year_range` model validator (`mode="after"`): for
`YEAR_RANGE` with both years present, a BCE range with `end_year >
start_year` or a CE range with `end_year < start_year` raises a
`ValueError`; every other combination is accepted unchanged. -/
def mkDateInfo (t : DateType) (dt : String) (sy ey : Option Int) (bce : Bool) :
    Except String DateInfo :=
  let di : DateInfo := ⟨t, dt, sy, ey, bce⟩
  match t, sy, ey with
  | .yearRange, some s, some e =>
    if bce then
      if e > s then
        .error "For BCE dates, end_year must be chronologically later (smaller number) than start_year"
      else
        .ok di
    else
      if e < s then
        .error "For CE dates, end_year must be >= start_year"
      else
        .ok di
  | _, _, _ => .ok di

/-- `Artist` pydantic model (no validator). -/
structure Artist where
  name : String
  birth_year : Option Int
  death_year : Option Int
deriving DecidableEq, Repr

/-- `Museum` pydantic model. -/
structure Museum where
  name : String
deriving DecidableEq, Repr

/-- `Image` pydantic model: the `url` field is `Optional[HttpUrl]`, kept
here as the URL's text. -/
structure Image where
  url : Option String
  copyright : Option String
deriving DecidableEq, Repr

/-- String prefix test (`str.startswith` in Python), computed on the
character lists so that it evaluates by kernel reduction. -/
def strPrefixOf (p s : String) : Bool :=
  p.data.isPrefixOf s.data

/-- Model of pydantic's `HttpUrl` well-formedness check on `Image.url`:
an http/https scheme followed by a nonempty host part.  (The exact
pydantic grammar is richer; only validity/invalidity of concrete URLs is
used in this development.) -/
def isHttpUrl (s : String) : Bool :=
  (strPrefixOf "http://" s && s.length > 7) ||
    (strPrefixOf "https://" s && s.length > 8)

/-- Pydantic construction of an `Image`: a present `url` must be a
well-formed http(s) URL, otherwise construction raises a validation
error. -/
def mkImage (url : Option String) (copyright : Option String) :
    Except String Image :=
  match url with
  | none => .ok ⟨none, copyright⟩
  | some u =>
    if isHttpUrl u then .ok ⟨some u, copyright⟩
    else .error "Invalid URL"

/-- `ArtObject` pydantic model. -/
structure ArtObject where
  name : String
  creation_date : Option DateInfo
  type : Option String
deriving DecidableEq, Repr

/-- A value stored in `UnifiedArtwork.metadata`: either a missing value
or a raw cell value (kept as text, as the CSV readers deliver them). -/
inductive CVal where
  | na
  | val (s : String)
deriving DecidableEq, Repr

/-- `UnifiedArtwork` pydantic model.  `web_url` is assigned from raw
column values without re-validation (pydantic does not validate on
assignment), so it is kept as text. -/
structure UnifiedArtwork where
  id : String
  museum : Museum
  object : ArtObject
  artist : Artist
  images : List Image
  web_url : Option String
  metadata : List (String × CVal)
deriving DecidableEq, Repr

/-! ## The production merger's flattening step
(`SimpleMerger.flatten_artwork` in `data_processing/merge_datasets.py`) -/

/-- A value of a flattened-row cell: a string, an integer, or Python
`None` (which pandas stores as `NaN`/SQL `NULL`). -/
inductive FlatVal where
  | null
  | str (s : String)
  | int (n : Int)
deriving DecidableEq, Repr

/-- Python `str(...)` applied to an `Optional[HttpUrl]`: `str(None)` is
the literal text `"None"`. -/
def pyStrOpt : Option String → String
  | none => "None"
  | some s => s

/-- `FlatVal` from an optional integer. -/
def FlatVal.ofOptInt : Option Int → FlatVal
  | none => .null
  | some n => .int n

/-- `FlatVal` from an optional string. -/
def FlatVal.ofOptStr : Option String → FlatVal
  | none => .null
  | some s => .str s

/-- `SimpleMerger.flatten_artwork`: converts a `UnifiedArtwork` to the
flat dictionary written to CSV/SQLite, with the dictionary's insertion
order preserved (pandas turns the first row's keys into the table's
column order).  `url` applies Python truthiness to `artwork.web_url`
(`None` and the empty string are falsy); `image_url` is
`str(artwork.images[0].url)` when the image list is nonempty. -/
def flatten_artwork (a : UnifiedArtwork) : List (String × FlatVal) :=
  [ ("id", .str a.id),
    ("museum", .str a.museum.name),
    ("title", .str a.object.name),
    ("type", .ofOptStr a.object.type),
    ("artist_name", .str a.artist.name),
    ("artist_birth", .ofOptInt a.artist.birth_year),
    ("artist_death", .ofOptInt a.artist.death_year),
    ("date_text", match a.object.creation_date with
      | none => .null
      | some d => .str d.display_text),
    ("start_year", match a.object.creation_date with
      | none => .null
      | some d => .ofOptInt d.start_year),
    ("end_year", match a.object.creation_date with
      | none => .null
      | some d => .ofOptInt d.end_year),
    ("url", match a.web_url with
      | none => .null
      | some u => if u.isEmpty then .null else .str u),
    ("image_url", match a.images with
      | [] => .null
      | i :: _ => .str (pyStrOpt i.url)) ]

/-! ## The image-accessibility checker
(`DatasetManager.check_image_accessibility.check_url` in
`data_processing/dataset_manager.py`) -/

/-- An HTTP response as `check_url` observes it: the status code, the
`Content-Type` header (`headers.get('Content-Type', '')`, so a missing
header is the empty string) and the raw body bytes. -/
structure HttpResponse where
  status_code : Nat
  content_type : String
  body : List Nat
deriving DecidableEq, Repr

/-- Contiguous-subsequence test: Python `bytes.__contains__`
(`b'WEBP' in cs`) and the core of SQL `LIKE '%pat%'`. -/
def listContains [BEq α] (pat : List α) : List α → Bool
  | [] => pat.isPrefixOf []
  | c :: rest => pat.isPrefixOf (c :: rest) || listContains pat rest

/-- Python `bytes.__contains__` for a byte subsequence. -/
def bytesContains (pat : List Nat) (l : List Nat) : Bool :=
  listContains pat l

/-- The image-format signature test of `check_url` applied to
`content_start` (the first 32 body bytes): JPEG `FF D8`, PNG
`89 50 4E 47 0D 0A 1A 0A`, GIF `GIF87a`/`GIF89a`, WebP
`RIFF` + `WEBP` within the chunk, or `<svg` within the chunk. -/
def sigBytesValid (cs : List Nat) : Bool :=
  [0xFF, 0xD8].isPrefixOf cs ||
  [0x89, 0x50, 0x4E, 0x47, 0x0D, 0x0A, 0x1A, 0x0A].isPrefixOf cs ||
  [0x47, 0x49, 0x46, 0x38, 0x37, 0x61].isPrefixOf cs ||
  [0x47, 0x49, 0x46, 0x38, 0x39, 0x61].isPrefixOf cs ||
  ([0x52, 0x49, 0x46, 0x46].isPrefixOf cs &&
    bytesContains [0x57, 0x45, 0x42, 0x50] cs) ||
  bytesContains [0x3C, 0x73, 0x76, 0x67] cs

/-- `check_url`'s classification of one response (the accessibility flag
and the reason/status string).  The checks run in order: status code,
then `Content-Type`, then the body signature. -/
def check_url (r : HttpResponse) : Bool × String :=
  if r.status_code ≥ 400 then
    (false, "HTTP error: " ++ toString r.status_code)
  else if ¬ (strPrefixOf "image/" r.content_type = true) then
    (false, "Not an image: " ++ r.content_type)
  else if ¬ (sigBytesValid (r.body.take 32) = true) then
    (false, "Invalid image format")
  else
    (true, toString r.status_code)

/-! ## The relational query API (`GET /api/artworks` in `backend/main.py`)

The `artworks` table is modelled as a list of rows in physical
(`ROWID`) order; the columns the endpoint's `WHERE` clause touches carry
SQL `NULL` as `none`.  `title`, `museum` and `artist_name` are written by
the merger from always-present string fields, so they are plain
strings. -/

/-- One row of the `artworks` table as `backend/main.py` reads it. -/
structure DBRow where
  id : String
  museum : String
  title : String
  type : Option String
  artist_name : String
  artist_birth : Option Int
  artist_death : Option Int
  date_text : Option String
  start_year : Option Int
  end_year : Option Int
  is_bce : Option Int
  url : Option String
  image_url : Option String
deriving DecidableEq, Repr

/-- SQL `col <= v`: `UNKNOWN` (not selected) when the column is `NULL`. -/
def sqlLe (x : Option Int) (v : Int) : Bool :=
  match x with
  | none => false
  | some n => n ≤ v

/-- SQL `col >= v`: `UNKNOWN` (not selected) when the column is `NULL`. -/
def sqlGe (x : Option Int) (v : Int) : Bool :=
  match x with
  | none => false
  | some n => v ≤ n

/-- SQL `col = v`: `UNKNOWN` (not selected) when the column is `NULL`. -/
def sqlEqInt (x : Option Int) (v : Int) : Bool :=
  match x with
  | none => false
  | some n => n = v

/-- ASCII-lowercased character list of a string (SQLite `LIKE` is
case-insensitive for ASCII). -/
def lowerChars (s : String) : List Char :=
  s.data.map Char.toLower

/-- SQLite `col LIKE '%' || s || '%'`: case-insensitive containment (for
search strings without `LIKE` metacharacters, which the handler passes
through verbatim). -/
def sqlLike (col : String) (s : String) : Bool :=
  listContains (lowerChars s) (lowerChars col)

/-- The optional search condition of `get_artworks`: Python truthiness
(`if search:`) skips the condition for an absent or empty search string;
otherwise `title`, `museum` and `artist_name` are pattern-matched and
OR-combined. -/
def searchCondition (search : Option String) (r : DBRow) : Bool :=
  match search with
  | none => true
  | some s =>
    if s.isEmpty then true
    else sqlLike r.title s || sqlLike r.museum s || sqlLike r.artist_name s

/-- The lower-bound year condition of `get_artworks`:
BCE — `is_bce = 1 AND start_year <= min_year`;
CE — `(is_bce = 0 AND start_year >= min_year) OR
(start_year IS NULL AND end_year >= min_year)`. -/
def minYearCondition (minYear : Int) (minBce : Bool) (r : DBRow) : Bool :=
  if minBce then
    sqlEqInt r.is_bce 1 && sqlLe r.start_year minYear
  else
    (sqlEqInt r.is_bce 0 && sqlGe r.start_year minYear) ||
      (r.start_year.isNone && sqlGe r.end_year minYear)

/-- The upper-bound year condition of `get_artworks`:
BCE — `is_bce = 1 AND end_year >= max_year`;
CE — `(is_bce = 0 AND end_year <= max_year) OR
(end_year IS NULL AND start_year <= max_year)`. -/
def maxYearCondition (maxYear : Int) (maxBce : Bool) (r : DBRow) : Bool :=
  if maxBce then
    sqlEqInt r.is_bce 1 && sqlGe r.end_year maxYear
  else
    (sqlEqInt r.is_bce 0 && sqlLe r.end_year maxYear) ||
      (r.end_year.isNone && sqlLe r.start_year maxYear)

/-- The full `WHERE` clause of `get_artworks`: the search condition
AND-combined with the OR-join of the year conditions that were added
(the year block is only built when at least one bound is given). -/
def rowMatches (search : Option String) (minY maxY : Option Int)
    (minBce maxBce : Bool) (r : DBRow) : Bool :=
  searchCondition search r &&
    (if minY.isSome || maxY.isSome then
      (match minY with
        | some v => minYearCondition v minBce r
        | none => false) ||
      (match maxY with
        | some v => maxYearCondition v maxBce r
        | none => false)
    else true)

/-- `GET /api/artworks`: filters the table with the `WHERE` clause, takes
`COUNT(*)` as `total`, and returns the `LIMIT ? OFFSET ?` page of the
matching rows in `ROWID` order, with `offset = (page - 1) * limit`. -/
def get_artworks (table : List DBRow) (search : Option String)
    (page limit : Nat) (minY maxY : Option Int) (minBce maxBce : Bool) :
    Nat × List DBRow :=
  let offset := (page - 1) * limit
  let matched := table.filter (rowMatches search minY maxY minBce maxBce)
  (matched.length, (matched.drop offset).take limit)

/-! ## Museum processor framework
(`data_processing/processors/base_processor.py`) -/

/-- A pandas row as `process_data` iterates it: column names paired with
cells, in column order (`none` is `NaN`). -/
abbrev Row := List (String × Option String)

/-- A value a column-map parser can produce (the value kinds that
`_set_model_field` writes into `UnifiedArtwork` fields in this
codebase). -/
inductive FieldVal where
  | str (s : String)
  | date (d : DateInfo)
  | artist (a : Artist)
  | images (l : List Image)
deriving Repr

/-- One `column_map` entry: an optional custom parser (`"parse"`) and an
optional dotted model path (`"model"`). -/
structure ColSpec where
  parse : Option (String → Row → Except String FieldVal)
  model : Option String

/-- A museum processor: its name, `column_map` (in declaration order —
Python dicts iterate in insertion order) and `exclude_from_metadata`. -/
structure Processor where
  museum_name : String
  column_map : List (String × ColSpec)
  exclude_from_metadata : List String

/-- `_set_model_field`: dotted-path `setattr` onto the artwork.  An
unknown attribute path raises (`AttributeError`); in this typed embedding
a value of the wrong kind for the path is likewise modelled as an error
(the processors in the tree only ever assign matching kinds). -/
def set_model_field (a : UnifiedArtwork) (path : String) (v : FieldVal) :
    Except String UnifiedArtwork :=
  if path = "id" then
    match v with
    | .str s => .ok { a with id := s }
    | _ => .error "type mismatch"
  else if path = "object.name" then
    match v with
    | .str s => .ok { a with object := { a.object with name := s } }
    | _ => .error "type mismatch"
  else if path = "object.type" then
    match v with
    | .str s => .ok { a with object := { a.object with type := some s } }
    | _ => .error "type mismatch"
  else if path = "object.creation_date" then
    match v with
    | .date d => .ok { a with object := { a.object with creation_date := some d } }
    | _ => .error "type mismatch"
  else if path = "artist" then
    match v with
    | .artist ar => .ok { a with artist := ar }
    | _ => .error "type mismatch"
  else if path = "images" then
    match v with
    | .images l => .ok { a with images := l }
    | _ => .error "type mismatch"
  else if path = "web_url" then
    match v with
    | .str s => .ok { a with web_url := some s }
    | _ => .error "type mismatch"
  else
    .error "no such attribute"

/-- One iteration of `_row_to_artwork`'s column-map loop over the state
(artwork so far, `used_columns` so far):
a missing or `NaN` column is skipped entirely; otherwise the column is
marked used *before* parsing, a parse failure is caught and skips the
column, a missing `"model"` key writes nothing, and a failure inside
`_set_model_field` is caught and skips the column. -/
def applyColumn (row : Row) (st : UnifiedArtwork × List String)
    (entry : String × ColSpec) : UnifiedArtwork × List String :=
  match row.lookup entry.1 with
  | none => st
  | some none => st
  | some (some raw) =>
    let used' := st.2 ++ [entry.1]
    let parsed : Except String FieldVal :=
      match entry.2.parse with
      | some p => p raw row
      | none => .ok (.str raw)
    match parsed with
    | .error _ => (st.1, used')
    | .ok v =>
      match entry.2.model with
      | none => (st.1, used')
      | some path =>
        match set_model_field st.1 path v with
        | .error _ => (st.1, used')
        | .ok art' => (art', used')

/-- `_create_metadata`: every row column that is neither in
`used_columns` nor in `exclude_from_metadata` and has a non-missing value
is copied into metadata under its original column name. -/
def create_metadata (row : Row) (used : List String)
    (excl : List String) : List (String × CVal) :=
  row.filterMap (fun e =>
    match e.2 with
    | none => none
    | some s =>
      if used.contains e.1 || excl.contains e.1 then none
      else some (e.1, CVal.val s))

/-- The blank `UnifiedArtwork` `_row_to_artwork` starts from: museum name
filled, artist defaulted to `"Unknown Artist"`, everything else
empty/absent. -/
def blank_artwork (museumName : String) : UnifiedArtwork :=
  { id := ""
    museum := ⟨museumName⟩
    object := ⟨"", none, none⟩
    artist := ⟨"Unknown Artist", none, none⟩
    images := []
    web_url := none
    metadata := [] }

/-- `_row_to_artwork`: fold the column map over the blank artwork, fill
metadata from the leftover columns, then fall back to the raw `id` column
if the id is still empty (`not artwork.id` — Python truthiness). -/
def row_to_artwork (p : Processor) (row : Row) : UnifiedArtwork :=
  let st := p.column_map.foldl (applyColumn row)
    (blank_artwork p.museum_name, [])
  let art :=
    { st.1 with metadata := create_metadata row st.2 p.exclude_from_metadata }
  if art.id = "" then
    match row.lookup "id" with
    | some (some s) => { art with id := s }
    | _ => art
  else art

/-- The row loop of `process_data` over an arbitrary row builder: a row
whose construction raises is logged and dropped; the rest are collected
in source order. -/
def process_data_rows (build : Row → Except String UnifiedArtwork) :
    List Row → List UnifiedArtwork
  | [] => []
  | r :: rest =>
    match build r with
    | .ok a => a :: process_data_rows build rest
    | .error _ => process_data_rows build rest

/-- `process_data`: builds one `UnifiedArtwork` per row with
`_row_to_artwork` inside the per-row `try`/`except`.  In this base class
every column-level exception is already caught inside `_row_to_artwork`,
so the embedded builder is total and always returns `.ok`. -/
def process_data (p : Processor) (df : List Row) : List UnifiedArtwork :=
  process_data_rows (fun r => .ok (row_to_artwork p r)) df

/-! ## The Cleveland processor
(`data_processing/processors/cleveland_art_processor.py`) -/

/-- ASCII `str.lower`. -/
def lowerStr (s : String) : String :=
  ⟨s.data.map Char.toLower⟩

/-- Numeric value of a digit string (`int(...)` on a `\d+` match). -/
def natOfDigits (g : List Char) : Nat :=
  g.foldl (fun n c => n * 10 + (c.toNat - '0'.toNat)) 0

/-- The maximal digit run at the head of the list and the remainder
(a greedy `\d+`). -/
def digitRun : List Char → List Char × List Char
  | [] => ([], [])
  | c :: cs =>
    if c.isDigit then
      let r := digitRun cs
      (c :: r.1, r.2)
    else ([], c :: cs)

/-- Attempt of the regex `(\d+)[-–]\s*(\d+)` anchored at the head of the
list: a greedy digit run, one of the two dashes, greedily skipped
whitespace, a second greedy digit run.  (Backtracking `\d+`/`\s*` here
cannot turn a failure into a success: a shorter first run leaves a digit
where the dash must be, and fewer skipped spaces leave whitespace where a
digit must be.) -/
def matchRangeAt (cs : List Char) : Option (List Char × List Char) :=
  let r1 := digitRun cs
  if r1.1.isEmpty then none
  else
    match r1.2 with
    | d :: rest =>
      if (d == '-') || (d == '–') then
        let r2 := digitRun (rest.dropWhile Char.isWhitespace)
        if r2.1.isEmpty then none else some (r1.1, r2.1)
      else none
    | [] => none

/-- `re.search(r'(\d+)[-–]\s*(\d+)', s)`: the leftmost starting position
at which the pattern matches, returning the two captured digit groups. -/
def findRangeMatch : List Char → Option (List Char × List Char)
  | [] => none
  | c :: cs =>
    match matchRangeAt (c :: cs) with
    | some r => some r
    | none => findRangeMatch cs

/-- `re.findall(r'(\d{4})', s)`: non-overlapping 4-digit matches, scanned
left to right (so a run of 5 digits yields only its first 4). -/
def findall4 (l : List Char) : List Nat :=
  match l with
  | a :: b :: c :: d :: rest =>
    if a.isDigit && b.isDigit && c.isDigit && d.isDigit then
      natOfDigits [a, b, c, d] :: findall4 rest
    else findall4 (b :: c :: d :: rest)
  | _ => []
termination_by l.length
decreasing_by
  all_goals simp_arith

/-- The BCE test of `parse_date`:
`'bce' in date_str or 'b.c.' in date_str`. -/
def bce_detected (ds : String) : Bool :=
  listContains "bce".data ds.data || listContains "b.c.".data ds.data

/-- `parse_date` of the Cleveland processor: lowercases the raw text;
`unknown`-containing or digit-free text is `UNKNOWN`; a dash-separated
range is parsed with BCE awareness and abbreviated CE end years (1-digit
fragment: start + 1; 2-digit fragment: the start's century prefix joined
with the fragment, rolled forward a century if smaller than the start);
otherwise all 4-digit years are collected, sorted ascending for CE and
descending for BCE, and the first/last become the bounds (`YEAR` when
only one year was found).  The `DateInfo` constructions run the
range validator, so an inverted range raises. -/
def parse_date (raw : String) : Except String DateInfo :=
  let ds := lowerStr raw
  if listContains "unknown".data ds.data || !(ds.data.any Char.isDigit) then
    mkDateInfo .unknown raw none none false
  else
    let is_bce := bce_detected ds
    match findRangeMatch ds.data with
    | some g =>
      let start_year := natOfDigits g.1
      let end_year :=
        if is_bce then natOfDigits g.2
        else if g.2.length = 1 then start_year + 1
        else if g.2.length = 2 then
          let j := (start_year / 100) * 100 + natOfDigits g.2
          if j < start_year then j + 100 else j
        else natOfDigits g.2
      mkDateInfo .yearRange raw (some (start_year : Int))
        (some (end_year : Int)) is_bce
    | none =>
      let years := findall4 ds.data
      if years.isEmpty then
        mkDateInfo .unknown raw none none false
      else
        let ys :=
          if is_bce then years.mergeSort (fun a b => decide (b ≤ a))
          else years.mergeSort (fun a b => decide (a ≤ b))
        if years.length > 1 then
          mkDateInfo .yearRange raw (some ((ys.headD 0 : Nat) : Int))
            (some ((ys.getLastD 0 : Nat) : Int)) is_bce
        else
          mkDateInfo .year raw (some ((ys.headD 0 : Nat) : Int))
            (some ((ys.headD 0 : Nat) : Int)) is_bce

/-- Strip leading and trailing whitespace (`str.strip`). -/
def trimChars (l : List Char) : List Char :=
  ((l.dropWhile Char.isWhitespace).reverse.dropWhile Char.isWhitespace).reverse

/-- The first piece of
`re.split(r';|,\s*(?:artist|painter|sculptor)', s)`: the prefix up to the
leftmost `;` or comma-whitespace-keyword occurrence. -/
def splitCreator : List Char → List Char
  | [] => []
  | c :: rest =>
    if c = ';' then []
    else if (c == ',') &&
        (strPrefixOf "artist" ⟨rest.dropWhile Char.isWhitespace⟩ ||
          strPrefixOf "painter" ⟨rest.dropWhile Char.isWhitespace⟩ ||
          strPrefixOf "sculptor" ⟨rest.dropWhile Char.isWhitespace⟩) then []
    else c :: splitCreator rest

/-- The tail of the pattern `,\s*(\d{4})[-–](\d{4})\)` after the comma:
greedily skipped whitespace, exactly four digits, a dash, exactly four
digits, a closing parenthesis. -/
def matchAfterComma (l : List Char) : Option (Nat × Nat) :=
  match l.dropWhile Char.isWhitespace with
  | a :: b :: c :: d :: dash :: e :: f :: g :: h :: close :: _ =>
    if a.isDigit && b.isDigit && c.isDigit && d.isDigit &&
        ((dash == '-') || (dash == '–')) &&
        e.isDigit && f.isDigit && g.isDigit && h.isDigit && (close == ')') then
      some (natOfDigits [a, b, c, d], natOfDigits [e, f, g, h])
    else none
  | _ => none

/-- The lazy `.*?,` search inside `\(.*?,\s*(\d{4})[-–](\d{4})\)`: widen
the `.*?` span one character at a time (never across a newline, which `.`
cannot match) until a comma with a matching tail is found. -/
def scanInsideParen : List Char → Option (Nat × Nat)
  | [] => none
  | c :: rest =>
    if c = ',' then
      match matchAfterComma rest with
      | some r => some r
      | none => scanInsideParen rest
    else if c = '\n' then none
    else scanInsideParen rest

/-- `re.search(r'\(.*?,\s*(\d{4})[-–](\d{4})\)', s)`: the leftmost `(`
from which the lazy inner scan succeeds. -/
def findParenYears : List Char → Option (Nat × Nat)
  | [] => none
  | c :: rest =>
    if c = '(' then
      match scanInsideParen rest with
      | some r => some r
      | none => findParenYears rest
    else findParenYears rest

/-- `re.sub(r'\([^)]*\)', '', s)`: removes every non-overlapping
parenthesized group (the greedy `[^)]*\)` reaches exactly to the first
closing parenthesis); an unclosed `(` stays. -/
def removeParens (l : List Char) : List Char :=
  match l with
  | [] => []
  | c :: rest =>
    if c = '(' then
      match hm : rest.dropWhile (fun x => x != ')') with
      | [] => c :: removeParens rest
      | _ :: after => removeParens after
    else c :: removeParens rest
termination_by l.length
decreasing_by
  · simp_arith
  · have h1 := congrArg List.length hm
    have h2 := (List.dropWhile_sublist (l := cs) (fun x => x != ')')).length_le
    simp only [List.length_cons] at h1 ⊢
    omega
  · simp_arith

/-- `parse_creators` of the Cleveland processor: empty/missing creators
yield `"Unknown Artist"`; otherwise the first creator before a `;` or a
`", artist|painter|sculptor"` split, birth/death years from a
`(..., YYYY–YYYY)` parenthetical, and the name with all parenthesized
text removed, trimmed. -/
def parse_creators (raw : String) (_row : Row) : Except String FieldVal :=
  if raw.isEmpty then
    .ok (.artist ⟨"Unknown Artist", none, none⟩)
  else
    let mc := trimChars (splitCreator raw.data)
    let years := findParenYears mc
    let birth : Option Int := years.map (fun y => (y.1 : Int))
    let death : Option Int := years.map (fun y => (y.2 : Int))
    let name : String := ⟨trimChars (removeParens mc)⟩
    .ok (.artist ⟨name, birth, death⟩)

/-- `parse_images` of the Cleveland processor: builds a single `Image`
from the raw URL, with copyright from the shared `share_license_status`
column (missing/NaN becomes `None`).  The `Image` construction validates
the URL, so a malformed URL raises. -/
def parse_images (raw : String) (row : Row) : Except String FieldVal :=
  let lic : Option String :=
    match row.lookup "share_license_status" with
    | some (some s) => some s
    | _ => none
  match mkImage (some raw) lic with
  | .ok img => .ok (.images [img])
  | .error e => .error e

/-- `ClevelandMuseumDataProcessor`: its `column_map` in declaration order
and its `exclude_from_metadata` set. -/
def cleveland_processor : Processor :=
  { museum_name := "Cleveland Museum of Art"
    column_map :=
      [ ("id", ⟨none, some "id"⟩),
        ("title", ⟨none, some "object.name"⟩),
        ("type", ⟨none, some "object.type"⟩),
        ("creation_date",
          ⟨some (fun v _ => (parse_date v).map FieldVal.date),
            some "object.creation_date"⟩),
        ("creators", ⟨some parse_creators, some "artist"⟩),
        ("image_web", ⟨some parse_images, some "images"⟩),
        ("image_print", ⟨some parse_images, some "images"⟩),
        ("url", ⟨none, some "web_url"⟩) ]
    exclude_from_metadata :=
      ["id", "title", "type", "creation_date", "creators", "image_web",
        "image_print", "image_full", "url"] }

/-! ## The dataset manager (`data_processing/dataset_manager.py`) -/

/-- `DEV_MODE_ROWS` of `BaseMuseumDataProcessor`. -/
def DEV_MODE_ROWS : Nat := 100

/-- `load_data` of the production processors
(`pd.read_csv(..., nrows=self.DEV_MODE_ROWS if dev_mode else None)`):
caps the rows read at `DEV_MODE_ROWS` in dev mode. -/
def load_data (file : List Row) (dev_mode : Bool) : List Row :=
  if dev_mode then file.take DEV_MODE_ROWS else file

/-- `get_unified_data`: `load_data` then `process_data`. -/
def get_unified_data (p : Processor) (file : List Row) (dev_mode : Bool) :
    List UnifiedArtwork :=
  process_data p (load_data file dev_mode)

/-- Python truthiness of an artwork's first image URL
(`a.images and len(a.images) > 0 and a.images[0].url`). -/
def hasImageUrl (a : UnifiedArtwork) : Bool :=
  match a.images with
  | [] => false
  | i :: _ =>
    match i.url with
    | none => false
    | some u => !u.isEmpty

/-- `DatasetManager.get_dataset` (file resolution elided — the file's
rows are passed in): processes the dataset with
`dev_mode = limit is not None`, truncates to `limit` when that is truthy
and smaller than the result (`if limit and limit < len(artworks)`), then
optionally filters to artworks with a first image URL. -/
def get_dataset (p : Processor) (file : List Row) (limit : Option Nat)
    (with_images_only : Bool) : List UnifiedArtwork :=
  let artworks := get_unified_data p file limit.isSome
  let artworks :=
    match limit with
    | some n =>
      if n ≠ 0 ∧ n < artworks.length then artworks.take n else artworks
    | none => artworks
  if with_images_only then artworks.filter hasImageUrl else artworks

/-! ## Helper lemmas -/

/-- A successful anchored range match starts with a digit. -/
theorem matchRangeAt_any_digit {l : List Char} {g : List Char × List Char}
    (h : matchRangeAt l = some g) : l.any Char.isDigit = true := by
  cases l with
  | nil => simp [matchRangeAt, digitRun] at h
  | cons c cs =>
    by_cases hc : c.isDigit
    · simp [List.any_cons, hc]
    · simp [matchRangeAt, digitRun, hc] at h

/-- A successful range search implies the text contains a digit. -/
theorem findRangeMatch_any_digit :
    ∀ {l : List Char} {g : List Char × List Char},
      findRangeMatch l = some g → l.any Char.isDigit = true := by
  intro l
  induction l with
  | nil => intro g h; simp [findRangeMatch] at h
  | cons c cs ih =>
    intro g h
    simp only [findRangeMatch] at h
    cases hm : matchRangeAt (c :: cs) with
    | some r => exact matchRangeAt_any_digit hm
    | none =>
      rw [hm] at h
      simp only [List.any_cons]
      rw [ih h]
      simp

/-! ## Claim C1: the flattened row's columns -/

/-- C1 (divergence witness): for every `UnifiedArtwork`, the production
merger's `flatten_artwork` emits exactly the twelve columns `id, museum,
title, type, artist_name, artist_birth, artist_death, date_text,
start_year, end_year, url, image_url` — there is no `is_bce` column, and
`url`/`image_url` sit at indices 10/11, not 11/12 as the 13-column claim
(and the positional reads `row[10]`/`row[11]`/`row[12]` in
`backend/main.py`) require.  The `image_url` cell is built from the first
image, and is `NULL` when the artwork has no images. -/
theorem claim1_flatten_artwork_columns (a : UnifiedArtwork) :
    (flatten_artwork a).map Prod.fst =
      ["id", "museum", "title", "type", "artist_name", "artist_birth",
        "artist_death", "date_text", "start_year", "end_year", "url",
        "image_url"] ∧
    ((flatten_artwork a).map Prod.fst).length = 12 ∧
    "is_bce" ∉ (flatten_artwork a).map Prod.fst ∧
    (flatten_artwork a).get? 11 =
      some ("image_url", match a.images with
        | [] => FlatVal.null
        | i :: _ => FlatVal.str (pyStrOpt i.url)) := by
  have hkeys : (flatten_artwork a).map Prod.fst =
      ["id", "museum", "title", "type", "artist_name", "artist_birth",
        "artist_death", "date_text", "start_year", "end_year", "url",
        "image_url"] := rfl
  refine ⟨hkeys, by rw [hkeys]; rfl, ?_, rfl⟩
  rw [hkeys]
  decide

/-! ## Claim C2: the `DateInfo` chronological invariant -/

/-- C2: every `DateInfo` constructed with type `YEAR_RANGE` and both
years present satisfies `end_year >= start_year` when `is_bce` is false
and `end_year <= start_year` when `is_bce` is true; constructing a
chronologically-inverted `YEAR_RANGE` fails with a validation error. -/
theorem claim2_dateinfo_year_range_invariant :
    (∀ (t : DateType) (dt : String) (sy ey : Option Int) (bce : Bool)
        (di : DateInfo),
      mkDateInfo t dt sy ey bce = .ok di →
      di.type = .yearRange →
      ∀ s e : Int, di.start_year = some s → di.end_year = some e →
        (di.is_bce = false → s ≤ e) ∧ (di.is_bce = true → e ≤ s)) ∧
    (∀ (dt : String) (s e : Int) (bce : Bool),
      (bce = false ∧ e < s) ∨ (bce = true ∧ s < e) →
      ∃ msg, mkDateInfo .yearRange dt (some s) (some e) bce = .error msg) := by
  constructor
  · intro t dt sy ey bce di hok htype s e hs he
    cases t with
    | yearRange =>
      cases sy with
      | none =>
        simp only [mkDateInfo, Except.ok.injEq] at hok
        subst hok
        simp at hs
      | some s0 =>
        cases ey with
        | none =>
          simp only [mkDateInfo, Except.ok.injEq] at hok
          subst hok
          simp at he
        | some e0 =>
          simp only [mkDateInfo] at hok
          by_cases hbce : bce
          · subst hbce
            by_cases hlt : e0 > s0
            · simp [hlt] at hok
            · simp [hlt] at hok
              subst hok
              simp only [DateInfo.start_year] at hs
              simp only [DateInfo.end_year] at he
              cases hs; cases he
              exact ⟨fun h => by simp at h, fun _ => le_of_not_lt hlt⟩
          · simp only [Bool.not_eq_true] at hbce
            subst hbce
            simp only [Bool.false_eq_true, if_false] at hok
            by_cases hlt : e0 < s0
            · simp [hlt] at hok
            · simp [hlt] at hok
              subst hok
              simp only [DateInfo.start_year] at hs
              simp only [DateInfo.end_year] at he
              cases hs; cases he
              exact ⟨fun _ => le_of_not_lt hlt, fun h => by simp at h⟩
    | year =>
      simp only [mkDateInfo, Except.ok.injEq] at hok
      subst hok
      simp at htype
    | century =>
      simp only [mkDateInfo, Except.ok.injEq] at hok
      subst hok
      simp at htype
    | unknown =>
      simp only [mkDateInfo, Except.ok.injEq] at hok
      subst hok
      simp at htype
  · intro dt s e bce h
    rcases h with ⟨hb, hlt⟩ | ⟨hb, hlt⟩
    · subst hb
      refine ⟨"For CE dates, end_year must be >= start_year", ?_⟩
      simp [mkDateInfo, hlt]
    · subst hb
      refine ⟨"For BCE dates, end_year must be chronologically later (smaller number) than start_year", ?_⟩
      simp [mkDateInfo, hlt]

/-- Witness for C2: the BCE range 1000–900 constructs successfully and
satisfies the invariant, and the inverted CE range 1981–1980 fails. -/
theorem claim2_dateinfo_year_range_invariant_witness :
    ((mkDateInfo .yearRange "1000-900 BCE" (some 1000) (some 900) true =
        .ok ⟨.yearRange, "1000-900 BCE", some 1000, some 900, true⟩) ∧
      ((900 : Int) ≤ 1000)) ∧
    (∃ msg, mkDateInfo .yearRange "1981-1980" (some 1981) (some 1980) false =
      .error msg) := by
  refine ⟨⟨rfl, ?_⟩, ?_⟩
  · exact (claim2_dateinfo_year_range_invariant.1 .yearRange "1000-900 BCE"
      (some 1000) (some 900) true ⟨.yearRange, "1000-900 BCE", some 1000, some 900, true⟩
      rfl rfl 1000 900 rfl rfl).2 rfl
  · exact claim2_dateinfo_year_range_invariant.2 "1981-1980" 1981 1980 false
      (Or.inl ⟨rfl, by decide⟩)

/-! ## Claim C3: Cleveland dash-separated range parsing -/

/-- C3: on text containing a dash-separated range (no `unknown` token),
`parse_date` returns a `YEAR_RANGE`: for BCE input both fragments are
read verbatim; for CE input a 1-digit end fragment yields `start + 1`,
and a 2-digit end fragment is joined to the start-year's century prefix
and rolled forward a century when the joined value is smaller than the
start year. -/
theorem claim3_cleveland_parse_date_ranges :
    (∀ (raw : String) (g1 g2 : List Char),
      listContains "unknown".data (lowerStr raw).data = false →
      findRangeMatch (lowerStr raw).data = some (g1, g2) →
      bce_detected (lowerStr raw) = true →
      natOfDigits g2 ≤ natOfDigits g1 →
      parse_date raw = .ok ⟨.yearRange, raw, some (natOfDigits g1 : Int),
        some (natOfDigits g2 : Int), true⟩) ∧
    (∀ (raw : String) (g1 g2 : List Char),
      listContains "unknown".data (lowerStr raw).data = false →
      findRangeMatch (lowerStr raw).data = some (g1, g2) →
      bce_detected (lowerStr raw) = false →
      g2.length = 1 →
      parse_date raw = .ok ⟨.yearRange, raw, some (natOfDigits g1 : Int),
        some ((natOfDigits g1 + 1 : Nat) : Int), false⟩) ∧
    (∀ (raw : String) (g1 g2 : List Char),
      listContains "unknown".data (lowerStr raw).data = false →
      findRangeMatch (lowerStr raw).data = some (g1, g2) →
      bce_detected (lowerStr raw) = false →
      g2.length = 2 →
      parse_date raw = .ok ⟨.yearRange, raw, some (natOfDigits g1 : Int),
        some ((if natOfDigits g1 / 100 * 100 + natOfDigits g2 < natOfDigits g1
            then natOfDigits g1 / 100 * 100 + natOfDigits g2 + 100
            else natOfDigits g1 / 100 * 100 + natOfDigits g2 : Nat) : Int),
        false⟩) := by
  refine ⟨?_, ?_, ?_⟩
  · intro raw g1 g2 hu hm hb hle
    have hd : (lowerStr raw).data.any Char.isDigit = true :=
      findRangeMatch_any_digit hm
    have hnotlt : ¬ ((natOfDigits g2 : Int) > (natOfDigits g1 : Int)) := by
      exact_mod_cast not_lt.mpr hle
    simp [parse_date, hu, hd, hm, hb, mkDateInfo, hnotlt]
  · intro raw g1 g2 hu hm hb hlen
    have hd : (lowerStr raw).data.any Char.isDigit = true :=
      findRangeMatch_any_digit hm
    have hnotlt : ¬ (((natOfDigits g1 + 1 : Nat) : Int) <
        (natOfDigits g1 : Int)) := by
      push_cast
      omega
    simp [parse_date, hu, hd, hm, hb, hlen, mkDateInfo, hnotlt]
  · intro raw g1 g2 hu hm hb hlen
    have hd : (lowerStr raw).data.any Char.isDigit = true :=
      findRangeMatch_any_digit hm
    have hdm := Nat.div_add_mod (natOfDigits g1) 100
    have hmod : natOfDigits g1 % 100 < 100 := Nat.mod_lt _ (by norm_num)
    have hnotlt : ¬ (((if natOfDigits g1 / 100 * 100 + natOfDigits g2 <
          natOfDigits g1
        then natOfDigits g1 / 100 * 100 + natOfDigits g2 + 100
        else natOfDigits g1 / 100 * 100 + natOfDigits g2 : Nat) : Int) <
        (natOfDigits g1 : Int)) := by
      by_cases hj : natOfDigits g1 / 100 * 100 + natOfDigits g2 <
          natOfDigits g1
      · rw [if_pos hj]
        push_cast
        omega
      · rw [if_neg hj]
        push_cast
        omega
    have hE : parse_date raw = mkDateInfo .yearRange raw
        (some (natOfDigits g1 : Int))
        (some ((if natOfDigits g1 / 100 * 100 + natOfDigits g2 < natOfDigits g1
          then natOfDigits g1 / 100 * 100 + natOfDigits g2 + 100
          else natOfDigits g1 / 100 * 100 + natOfDigits g2 : Nat) : Int))
        false := by
      simp [parse_date, hu, hd, hm, hb, hlen]
    rw [hE]
    simp only [mkDateInfo, Bool.false_eq_true, if_false]
    rw [if_neg hnotlt]

/-- Witness for C3: `"1000-900 BCE"` → 1000–900 BCE, `"1980-1"` →
1980–1981 CE, `"c. 1846–83"` → 1846–1883 CE. -/
theorem claim3_cleveland_parse_date_ranges_witness :
    (parse_date "1000-900 BCE" =
      .ok ⟨.yearRange, "1000-900 BCE", some 1000, some 900, true⟩) ∧
    (parse_date "1980-1" =
      .ok ⟨.yearRange, "1980-1", some 1980, some 1981, false⟩) ∧
    (parse_date "c. 1846–83" =
      .ok ⟨.yearRange, "c. 1846–83", some 1846, some 1883, false⟩) := by
  refine ⟨?_, ?_, ?_⟩
  · exact claim3_cleveland_parse_date_ranges.1 "1000-900 BCE"
      ['1', '0', '0', '0'] ['9', '0', '0'] (by decide) (by decide) (by decide)
      (by decide)
  · exact claim3_cleveland_parse_date_ranges.2.1 "1980-1"
      ['1', '9', '8', '0'] ['1'] (by decide) (by decide) (by decide)
      (by decide)
  · exact claim3_cleveland_parse_date_ranges.2.2 "c. 1846–83"
      ['1', '8', '4', '6'] ['8', '3'] (by decide) (by decide) (by decide)
      (by decide)

/-! ## Claim C4: the year-range filter semantics -/

/-- C4: with at least one of `min_year`/`max_year` given, the counted and
returned rows are exactly those satisfying the search condition AND the
OR-combination of the given bound conditions, with the four bound
conditions exactly as the claim spells them; with neither bound given,
only the search condition applies. -/
theorem claim4_artworks_year_filter :
    (∀ (table : List DBRow) (search : Option String) (page limit : Nat)
        (minY maxY : Option Int) (minBce maxBce : Bool),
      minY.isSome ∨ maxY.isSome →
      get_artworks table search page limit minY maxY minBce maxBce =
        (let matched := table.filter (fun r =>
          searchCondition search r &&
            ((match minY with
              | some v =>
                if minBce then sqlEqInt r.is_bce 1 && sqlLe r.start_year v
                else (sqlEqInt r.is_bce 0 && sqlGe r.start_year v) ||
                  (r.start_year.isNone && sqlGe r.end_year v)
              | none => false) ||
            (match maxY with
              | some v =>
                if maxBce then sqlEqInt r.is_bce 1 && sqlGe r.end_year v
                else (sqlEqInt r.is_bce 0 && sqlLe r.end_year v) ||
                  (r.end_year.isNone && sqlLe r.start_year v)
              | none => false)));
        (matched.length, (matched.drop ((page - 1) * limit)).take limit))) ∧
    (∀ (table : List DBRow) (search : Option String) (page limit : Nat)
        (minBce maxBce : Bool),
      get_artworks table search page limit none none minBce maxBce =
        (let matched := table.filter (searchCondition search);
        (matched.length, (matched.drop ((page - 1) * limit)).take limit))) := by
  constructor
  · intro table search page limit minY maxY minBce maxBce h
    cases minY with
    | some v =>
      cases maxY with
      | some w => rfl
      | none => rfl
    | none =>
      cases maxY with
      | some w => rfl
      | none => rcases h with h | h <;> simp at h
  · intro table search page limit minBce maxBce
    have hfun : rowMatches search none none minBce maxBce =
        searchCondition search := by
      funext r
      simp only [rowMatches, Option.isSome_none, Bool.or_self,
        Bool.false_eq_true, if_false, Bool.and_true]
    simp only [get_artworks, hfun]

/-- Witness for C4: a two-row table filtered with `min_year = 1500` (CE)
keeps only the CE row with `start_year >= 1500`. -/
theorem claim4_artworks_year_filter_witness :
    get_artworks
      [⟨"a1", "M", "T1", none, "A", none, none, none, some 1400, some 1450, some 0, none, none⟩,
        ⟨"a2", "M", "T2", none, "A", none, none, none, some 1600, some 1650, some 0, none, none⟩]
      none 1 20 (some 1500) none false false =
      (1, [⟨"a2", "M", "T2", none, "A", none, none, none, some 1600, some 1650, some 0, none, none⟩]) := by
  rw [claim4_artworks_year_filter.1
    [⟨"a1", "M", "T1", none, "A", none, none, none, some 1400, some 1450, some 0, none, none⟩,
      ⟨"a2", "M", "T2", none, "A", none, none, none, some 1600, some 1650, some 0, none, none⟩]
    none 1 20 (some 1500) none false false (Or.inl rfl)]
  decide

/-! ## Claim C5: signature detection vs. the Content-Type gate -/

/-- C5 counterexample: a 200 response whose body begins with the JPEG
signature `FF D8` but whose `Content-Type` is `text/html` is classified
inaccessible — refuting the claim that an `FF D8` body is classified a
valid image regardless of the declared `Content-Type` (the `Content-Type`
check runs first and is conjunctive). -/
theorem claim5_counterexample :
    (check_url ⟨200, "text/html", [0xFF, 0xD8]⟩).1 = false := by
  decide

/-- C5 (amended): the checker classifies a response as accessible only
when all three gates pass; for a body beginning with `FF D8` the
signature gate always passes, so such a response is accessible exactly
when its status is below 400 and its `Content-Type` starts with
`image/`; and any response with `Content-Type: text/html` is classified
inaccessible even with HTTP status 200. -/
theorem claim5_amended_signature_check :
    (∀ r : HttpResponse, [0xFF, 0xD8].isPrefixOf r.body →
      ((check_url r).1 = true ↔
        (r.status_code < 400 ∧ strPrefixOf "image/" r.content_type = true))) ∧
    (∀ r : HttpResponse, r.content_type = "text/html" →
      (check_url r).1 = false) := by
  constructor
  · intro r hjpeg
    have hsig : sigBytesValid (r.body.take 32) = true := by
      have hp : [0xFF, 0xD8].isPrefixOf (r.body.take 32) = true := by
        rw [List.isPrefixOf_iff_prefix] at hjpeg ⊢
        rw [List.prefix_take_iff]
        exact ⟨hjpeg, by simp⟩
      simp [sigBytesValid, hp]
    constructor
    · intro h
      by_cases hst : r.status_code ≥ 400
      · simp [check_url, hst] at h
      · by_cases hct : strPrefixOf "image/" r.content_type = true
        · exact ⟨Nat.lt_of_not_le hst, hct⟩
        · simp [check_url, hst, hct] at h
    · rintro ⟨hst, hct⟩
      simp [check_url, Nat.not_le.mpr hst, hct, hsig]
  · intro r hct
    by_cases hst : r.status_code ≥ 400
    · simp [check_url, hst]
    · have hf : strPrefixOf "image/" r.content_type = false := by
        rw [hct]; decide
      simp [check_url, hst, hf]

/-- Witness for C5's amended theorem: a well-formed JPEG response with an
`image/` content type is classified accessible, and a `text/html`
response with status 200 is classified inaccessible. -/
theorem claim5_amended_signature_check_witness :
    ((check_url ⟨200, "image/jpeg", [0xFF, 0xD8, 0x01]⟩).1 = true) ∧
    ((check_url ⟨200, "text/html", [0xFF, 0xD8, 0x01]⟩).1 = false) := by
  constructor
  · exact (claim5_amended_signature_check.1 ⟨200, "image/jpeg", [0xFF, 0xD8, 0x01]⟩
      (by decide)).2 ⟨by decide, by decide⟩
  · exact claim5_amended_signature_check.2 ⟨200, "text/html", [0xFF, 0xD8, 0x01]⟩ rfl

/-! ## Claim C8: the pagination contract -/

/-- C8: with `page >= 1` and `limit` in `[1, 100]`, the artwork list
returned by `GET /api/artworks` never exceeds `limit` entries, and for a
fixed filter set `total` is the count of all matching rows and does not
depend on `page`. -/
theorem claim8_pagination_contract
    (table : List DBRow) (search : Option String) (page page' limit : Nat)
    (minY maxY : Option Int) (minBce maxBce : Bool)
    (hp : 1 ≤ page) (hp' : 1 ≤ page') (hl : 1 ≤ limit) (hl' : limit ≤ 100) :
    (get_artworks table search page limit minY maxY minBce maxBce).2.length ≤
      limit ∧
    (get_artworks table search page limit minY maxY minBce maxBce).1 =
      (table.filter (rowMatches search minY maxY minBce maxBce)).length ∧
    (get_artworks table search page limit minY maxY minBce maxBce).1 =
      (get_artworks table search page' limit minY maxY minBce maxBce).1 := by
  refine ⟨?_, rfl, rfl⟩
  simp only [get_artworks]
  exact List.length_take_le _ _

/-- Witness for C8: a concrete one-row table queried at two pages. -/
theorem claim8_pagination_contract_witness :
    (get_artworks
        [⟨"a1", "M", "T1", none, "A", none, none, none, some 1400, none, some 0, none, none⟩]
        none 1 20 none none false false).2.length ≤ 20 ∧
    (get_artworks
        [⟨"a1", "M", "T1", none, "A", none, none, none, some 1400, none, some 0, none, none⟩]
        none 1 20 none none false false).1 =
      ([⟨"a1", "M", "T1", none, "A", none, none, none, some 1400, none, some 0, none, none⟩].filter
        (rowMatches none none none false false)).length ∧
    (get_artworks
        [⟨"a1", "M", "T1", none, "A", none, none, none, some 1400, none, some 0, none, none⟩]
        none 1 20 none none false false).1 =
      (get_artworks
        [⟨"a1", "M", "T1", none, "A", none, none, none, some 1400, none, some 0, none, none⟩]
        none 2 20 none none false false).1 :=
  claim8_pagination_contract
    [⟨"a1", "M", "T1", none, "A", none, none, none, some 1400, none, some 0, none, none⟩]
    none 1 2 20 none none false false (by decide) (by decide) (by decide)
    (by decide)

/-! ## Framework lemmas for C6, C7 and C10 -/

/-- The row loop keeps exactly the rows whose construction succeeds, in
source order. -/
theorem process_data_rows_eq_filterMap
    (build : Row → Except String UnifiedArtwork) (df : List Row) :
    process_data_rows build df =
      df.filterMap (fun r => (build r).toOption) := by
  induction df with
  | nil => rfl
  | cons r rest ih =>
    simp only [process_data_rows, List.filterMap_cons]
    cases build r with
    | ok a => simp [Except.toOption, ih]
    | error e => simp [Except.toOption, ih]

/-- The `used_columns` component of one column-map step: the column is
marked used exactly when it is present with a non-missing value,
regardless of whether its parse or write succeeded. -/
theorem applyColumn_snd (row : Row) (st : UnifiedArtwork × List String)
    (e : String × ColSpec) :
    (applyColumn row st e).2 =
      match row.lookup e.1 with
      | some (some _) => st.2 ++ [e.1]
      | _ => st.2 := by
  cases hl : row.lookup e.1 with
  | none => simp [applyColumn, hl]
  | some v =>
    cases v with
    | none => simp [applyColumn, hl]
    | some raw =>
      simp only [applyColumn, hl]
      cases hp : (match e.2.parse with
        | some p => p raw row
        | none => .ok (.str raw)) with
      | error msg => simp
      | ok v =>
        cases hmo : e.2.model with
        | none => simp
        | some path =>
          cases hs : set_model_field st.1 path v with
          | error m => simp [hs]
          | ok a' => simp [hs]

/-- Closed form of the `used_columns` set after folding a column map:
the map's columns that are present in the row with a non-missing
value, in map order. -/
theorem foldl_applyColumn_snd (cm : List (String × ColSpec)) (row : Row) :
    ∀ (a : UnifiedArtwork) (u : List String),
      (cm.foldl (applyColumn row) (a, u)).2 =
        u ++ cm.filterMap (fun e =>
          match row.lookup e.1 with
          | some (some _) => some e.1
          | _ => none) := by
  induction cm with
  | nil => intro a u; simp
  | cons e cm ih =>
    intro a u
    rcases h1 : applyColumn row (a, u) e with ⟨a1, u1⟩
    have h2 := applyColumn_snd row (a, u) e
    rw [h1] at h2
    simp only [List.foldl_cons, h1, List.filterMap_cons]
    rw [ih a1 u1]
    cases hl : row.lookup e.1 with
    | none =>
      rw [hl] at h2
      simp at h2
      simp [h2]
    | some v =>
      cases v with
      | none =>
        rw [hl] at h2
        simp at h2
        simp [h2]
      | some raw =>
        rw [hl] at h2
        simp at h2
        simp [h2]

/-- `_row_to_artwork` installs exactly `_create_metadata`'s result as the
metadata (the id fallback step does not touch it). -/
theorem row_to_artwork_metadata (p : Processor) (row : Row) :
    (row_to_artwork p row).metadata =
      create_metadata row
        ((p.column_map.foldl (applyColumn row)
          (blank_artwork p.museum_name, [])).2)
        p.exclude_from_metadata := by
  simp only [row_to_artwork]
  split
  · split <;> rfl
  · rfl

/-- `_row_to_artwork` keeps the image list produced by the column-map
fold (metadata filling and the id fallback do not touch it). -/
theorem row_to_artwork_images (p : Processor) (row : Row) :
    (row_to_artwork p row).images =
      ((p.column_map.foldl (applyColumn row)
        (blank_artwork p.museum_name, [])).1).images := by
  simp only [row_to_artwork]
  split
  · split <;> rfl
  · rfl

/-- A metadata key that is used or excluded is never present. -/
theorem create_metadata_lookup_none (row : Row) (used excl : List String)
    (c : String) (h : used.contains c = true ∨ excl.contains c = true) :
    (create_metadata row used excl).lookup c = none := by
  induction row with
  | nil => rfl
  | cons e rest ih =>
    cases e with
    | mk k w =>
      cases w with
      | none => simpa [create_metadata] using ih
      | some s =>
        simp only [create_metadata, List.filterMap_cons]
        by_cases hk : (used.contains k || excl.contains k) = true
        · simp only [hk, if_true]
          simpa [create_metadata] using ih
        · have hk' : (used.contains k || excl.contains k) = false := by
            simpa using hk
          simp only [hk', Bool.false_eq_true, if_false]
          have hne : (c == k) = false := by
            refine beq_false_of_ne ?_
            intro hck
            subst hck
            rcases h with h | h
            · exact hk (by rw [h, Bool.true_or])
            · exact hk (by rw [h, Bool.or_true])
          simp only [List.lookup, hne]
          simpa [create_metadata] using ih

/-- A row column with a non-missing value that is neither used nor
excluded appears in the metadata under its own name. -/
theorem create_metadata_lookup_val (row : Row) (used excl : List String)
    (c : String) (v : String) (hv : row.lookup c = some (some v))
    (hu : used.contains c = false) (he : excl.contains c = false) :
    (create_metadata row used excl).lookup c = some (.val v) := by
  induction row with
  | nil => simp [List.lookup] at hv
  | cons e rest ih =>
    cases e with
    | mk k w =>
      by_cases hck : (c == k) = true
      · have hck' : c = k := by simpa using hck
        subst hck'
        simp only [List.lookup, hck] at hv
        have hw : w = some v := by simpa using hv
        subst hw
        simp only [create_metadata, List.filterMap_cons, hu, he,
          Bool.or_self, Bool.false_eq_true, if_false]
        simp [List.lookup, hck]
      · have hck' : (c == k) = false := by
          simpa using hck
        simp only [List.lookup, hck'] at hv
        simp only [create_metadata, List.filterMap_cons]
        cases w with
        | none => simpa [create_metadata] using ih hv
        | some s =>
          by_cases hk : (used.contains k || excl.contains k) = true
          · simp only [hk, if_true]
            simpa [create_metadata] using ih hv
          · have hk' : (used.contains k || excl.contains k) = false := by
              simpa using hk
            simp only [hk', Bool.false_eq_true, if_false]
            simp only [List.lookup, hck']
            simpa [create_metadata] using ih hv

/-- In this framework row construction is total, so `process_data`
returns exactly one artwork per row, in source order. -/
theorem process_data_eq_map (p : Processor) (df : List Row) :
    process_data p df = df.map (row_to_artwork p) := by
  induction df with
  | nil => rfl
  | cons r rest ih =>
    simp only [process_data, process_data_rows, List.map_cons] at ih ⊢
    rw [ih]

/-- A successful `_set_model_field` call on any path other than `images`
leaves the image list unchanged. -/
theorem set_model_field_images_eq (a : UnifiedArtwork) (path : String)
    (v : FieldVal) (a' : UnifiedArtwork) (hne : path ≠ "images")
    (h : set_model_field a path v = .ok a') : a'.images = a.images := by
  unfold set_model_field at h
  split_ifs at h with h1 h2 h3 h4 h5 h6 h7 <;> cases v <;> simp_all
  all_goals (subst h; rfl)

/-- A column-map entry whose model path is not `images` leaves the image
list unchanged, whatever its parse and write do. -/
theorem applyColumn_images_invariant (row : Row)
    (st : UnifiedArtwork × List String) (e : String × ColSpec)
    (hne : e.2.model ≠ some "images") :
    ((applyColumn row st e).1).images = st.1.images := by
  cases hl : row.lookup e.1 with
  | none => simp [applyColumn, hl]
  | some v =>
    cases v with
    | none => simp [applyColumn, hl]
    | some raw =>
      simp only [applyColumn, hl]
      cases hp : (match e.2.parse with
        | some p => p raw row
        | none => .ok (.str raw)) with
      | error msg => simp
      | ok fv =>
        cases hmo : e.2.model with
        | none => simp
        | some path =>
          have hpne : path ≠ "images" := by
            intro hq
            exact hne (by rw [hmo, hq])
          cases hs : set_model_field st.1 path fv with
          | error m => simp [hs]
          | ok a' =>
            simp only [hs]
            exact set_model_field_images_eq st.1 path fv a' hpne hs

/-- Folding column-map entries none of which targets `images` leaves the
image list unchanged. -/
theorem foldl_applyColumn_images (entries : List (String × ColSpec))
    (row : Row) (h : ∀ e ∈ entries, e.2.model ≠ some "images") :
    ∀ st : UnifiedArtwork × List String,
      ((entries.foldl (applyColumn row) st).1).images = st.1.images := by
  induction entries with
  | nil => intro st; rfl
  | cons e es ih =>
    intro st
    simp only [List.foldl_cons]
    rw [ih (fun x hx => h x (List.mem_cons_of_mem e hx))
      (applyColumn row st e)]
    exact applyColumn_images_invariant row st e (h e (List.mem_cons_self e es))

/-- A column-map entry with a parser returning a fresh image list and
model path `images` replaces the artwork's image list outright. -/
theorem applyColumn_images_set (row : Row)
    (st : UnifiedArtwork × List String) (col : String)
    (pf : String → Row → Except String FieldVal) (raw : String)
    (l : List Image) (hl : row.lookup col = some (some raw))
    (hok : pf raw row = .ok (.images l)) :
    applyColumn row st (col, ⟨some pf, some "images"⟩) =
      ({ st.1 with images := l }, st.2 ++ [col]) := by
  simp [applyColumn, hl, hok, set_model_field]

/-! ## Claim C6: per-column and per-row error isolation -/

/-- C6: the framework's failure handling is local.  (i) Over any row
builder, `process_data`'s loop drops exactly the rows whose construction
raises and keeps the rest in source order; (ii) in this framework the
builder is total, so `process_data` never raises and returns one artwork
per row in source order; (iii) a parse failure of one mapped column
leaves the artwork untouched by that column (it is only marked used) and
processing continues; (iv) likewise for a failure while writing the
parsed value to its model field. -/
theorem claim6_process_data_error_isolation :
    (∀ (build : Row → Except String UnifiedArtwork) (df : List Row),
      process_data_rows build df =
        df.filterMap (fun r => (build r).toOption)) ∧
    (∀ (p : Processor) (df : List Row),
      process_data p df = df.map (row_to_artwork p)) ∧
    (∀ (row : Row) (a : UnifiedArtwork) (u : List String) (col : String)
        (spec : ColSpec) (raw : String)
        (pf : String → Row → Except String FieldVal) (msg : String),
      row.lookup col = some (some raw) →
      spec.parse = some pf →
      pf raw row = .error msg →
      applyColumn row (a, u) (col, spec) = (a, u ++ [col])) ∧
    (∀ (row : Row) (a : UnifiedArtwork) (u : List String) (col : String)
        (spec : ColSpec) (raw : String) (v : FieldVal) (path : String)
        (msg : String),
      row.lookup col = some (some raw) →
      (match spec.parse with
        | some p => p raw row
        | none => .ok (.str raw)) = .ok v →
      spec.model = some path →
      set_model_field a path v = .error msg →
      applyColumn row (a, u) (col, spec) = (a, u ++ [col])) := by
  refine ⟨process_data_rows_eq_filterMap, ?_, ?_, ?_⟩
  · intro p df
    exact process_data_eq_map p df
  · intro row a u col spec raw pf msg hl hp herr
    simp [applyColumn, hl, hp, herr]
  · intro row a u col spec raw v path msg hl hp hm hs
    simp [applyColumn, hl, hp, hm, hs]

/-- Witness for C6: a parser that raises on its single column leaves the
blank artwork unchanged and only marks the column used. -/
theorem claim6_process_data_error_isolation_witness :
    applyColumn [("c", some "x")] (blank_artwork "M", [])
      ("c", ⟨some (fun _ _ => .error "boom"), some "id"⟩) =
      (blank_artwork "M", ["c"]) :=
  claim6_process_data_error_isolation.2.2.1 [("c", some "x")]
    (blank_artwork "M") [] "c" ⟨some (fun _ _ => .error "boom"), some "id"⟩
    "x" (fun _ _ => .error "boom") "boom" rfl rfl rfl

/-! ## Claim C7: metadata exclusion -/

/-- C7: for every processor and row, a column in
`exclude_from_metadata` never appears in the produced metadata; neither
does a column consumed by the column map in that row (present with a
non-missing value); and every other row column with a non-missing value
appears in the metadata under its original name. -/
theorem claim7_metadata_exclusion (p : Processor) (row : Row) (c : String) :
    (c ∈ p.exclude_from_metadata →
      ((row_to_artwork p row).metadata).lookup c = none) ∧
    ((∃ spec, (c, spec) ∈ p.column_map ∧ ∃ v, row.lookup c = some (some v)) →
      ((row_to_artwork p row).metadata).lookup c = none) ∧
    (∀ v, row.lookup c = some (some v) →
      c ∉ p.exclude_from_metadata →
      c ∉ p.column_map.map Prod.fst →
      ((row_to_artwork p row).metadata).lookup c = some (.val v)) := by
  rw [row_to_artwork_metadata, foldl_applyColumn_snd]
  simp only [List.nil_append]
  refine ⟨?_, ?_, ?_⟩
  · intro hc
    exact create_metadata_lookup_none row _ _ c
      (Or.inr (by simpa [List.elem_iff] using hc))
  · rintro ⟨spec, hmem, v, hv⟩
    refine create_metadata_lookup_none row _ _ c (Or.inl ?_)
    have : c ∈ p.column_map.filterMap (fun e =>
        match row.lookup e.1 with
        | some (some _) => some e.1
        | _ => none) := by
      rw [List.mem_filterMap]
      exact ⟨(c, spec), hmem, by simp [hv]⟩
    simpa [List.elem_iff] using this
  · intro v hv hex hcm
    refine create_metadata_lookup_val row _ _ c v hv ?_ ?_
    · by_cases h : c ∈ p.column_map.filterMap (fun e =>
        match row.lookup e.1 with
        | some (some _) => some e.1
        | _ => none)
      · exfalso
        rw [List.mem_filterMap] at h
        obtain ⟨e, he, hfe⟩ := h
        have : e.1 = c := by
          cases hle : row.lookup e.1 with
          | none => rw [hle] at hfe; simp at hfe
          | some w =>
            cases w with
            | none => rw [hle] at hfe; simp at hfe
            | some s => rw [hle] at hfe; simpa using hfe
        exact hcm (by
          rw [List.mem_map]
          exact ⟨e, he, this⟩)
      · simpa [List.elem_iff] using h
    · simpa [List.elem_iff] using hex

/-- Witness for C7 on the Cleveland processor: `image_full` (excluded but
unmapped) and `id` (mapped and present) are absent from metadata, while
`tombstone` (unmapped, unexcluded, present) appears. -/
theorem claim7_metadata_exclusion_witness :
    (((row_to_artwork cleveland_processor
        [("id", some "1"), ("tombstone", some "x"),
          ("image_full", some "y")]).metadata).lookup "image_full" = none) ∧
    (((row_to_artwork cleveland_processor
        [("id", some "1"), ("tombstone", some "x"),
          ("image_full", some "y")]).metadata).lookup "id" = none) ∧
    (((row_to_artwork cleveland_processor
        [("id", some "1"), ("tombstone", some "x"),
          ("image_full", some "y")]).metadata).lookup "tombstone" =
      some (.val "x")) := by
  refine ⟨?_, ?_, ?_⟩
  · exact (claim7_metadata_exclusion cleveland_processor
      [("id", some "1"), ("tombstone", some "x"), ("image_full", some "y")]
      "image_full").1 (by decide)
  · exact (claim7_metadata_exclusion cleveland_processor
      [("id", some "1"), ("tombstone", some "x"), ("image_full", some "y")]
      "id").2.1 ⟨⟨none, some "id"⟩, List.mem_cons_self _ _, "1", rfl⟩
  · exact (claim7_metadata_exclusion cleveland_processor
      [("id", some "1"), ("tombstone", some "x"), ("image_full", some "y")]
      "tombstone").2.2 "x" rfl (by decide) (by decide)

/-! ## Claim C9: `get_dataset` limits imply the dev-mode row cap -/

/-- C9: any non-absent `limit` makes `get_dataset` invoke the processor
in dev mode, so at most `DEV_MODE_ROWS = 100` source rows are loaded and
at most 100 artworks are returned no matter how large `limit` is; an
absent `limit` processes the full file. -/
theorem claim9_get_dataset_dev_mode_cap :
    (∀ (p : Processor) (file : List Row) (n : Nat) (wio : Bool),
      (get_dataset p file (some n) wio).length ≤ DEV_MODE_ROWS) ∧
    (∀ (p : Processor) (file : List Row),
      get_unified_data p file true =
        process_data p (file.take DEV_MODE_ROWS)) ∧
    (∀ (p : Processor) (file : List Row) (wio : Bool),
      get_dataset p file none wio =
        (if wio then (process_data p file).filter hasImageUrl
          else process_data p file)) := by
  refine ⟨?_, fun p file => rfl, fun p file wio => rfl⟩
  intro p file n wio
  have hbase : (process_data p (file.take DEV_MODE_ROWS)).length ≤
      DEV_MODE_ROWS := by
    rw [process_data_eq_map, List.length_map, List.length_take]
    exact Nat.min_le_left _ _
  simp only [get_dataset, get_unified_data, load_data, Option.isSome_some,
    if_true]
  have h2 : (if n ≠ 0 ∧ n < (process_data p (file.take DEV_MODE_ROWS)).length
      then (process_data p (file.take DEV_MODE_ROWS)).take n
      else process_data p (file.take DEV_MODE_ROWS)).length ≤
      DEV_MODE_ROWS := by
    split
    · rw [List.length_take]
      exact le_trans (Nat.min_le_right _ _) hbase
    · exact hbase
  split
  · exact le_trans (List.length_filter_le _ _) h2
  · exact h2

/-! ## Claim C10: the second image column replaces the first -/

/-- C10: on a Cleveland row where `image_web` and `image_print` are both
present and both parse successfully, the produced artwork carries exactly
the single image built from `image_print` — each image entry assigns a
fresh one-element list to `images`, and the later entry's assignment
replaces the earlier one's. -/
theorem claim10_cleveland_images_replacement
    (row : Row) (vweb vprint : String) (iw ip : Image)
    (hw : row.lookup "image_web" = some (some vweb))
    (hp : row.lookup "image_print" = some (some vprint))
    (hiw : parse_images vweb row = .ok (.images [iw]))
    (hip : parse_images vprint row = .ok (.images [ip])) :
    (row_to_artwork cleveland_processor row).images = [ip] := by
  rw [row_to_artwork_images]
  have hsplit : cleveland_processor.column_map =
      [("id", ⟨none, some "id"⟩),
        ("title", ⟨none, some "object.name"⟩),
        ("type", ⟨none, some "object.type"⟩),
        ("creation_date",
          ⟨some (fun v _ => (parse_date v).map FieldVal.date),
            some "object.creation_date"⟩),
        ("creators", ⟨some parse_creators, some "artist"⟩)] ++
      [("image_web", ⟨some parse_images, some "images"⟩),
        ("image_print", ⟨some parse_images, some "images"⟩),
        ("url", ⟨none, some "web_url"⟩)] := rfl
  rw [hsplit, List.foldl_append]
  simp only [List.foldl_cons, List.foldl_nil]
  rw [applyColumn_images_set row _ "image_web" parse_images vweb [iw] hw hiw]
  rw [applyColumn_images_set row _ "image_print" parse_images vprint [ip]
    hp hip]
  rw [applyColumn_images_invariant row _ ("url", ⟨none, some "web_url"⟩)
    (by simp)]

/-- Witness for C10: a concrete row with both Cleveland image columns
produces only the `image_print` image. -/
theorem claim10_cleveland_images_replacement_witness :
    (row_to_artwork cleveland_processor
      [("image_web", some "https://ex.com/w.jpg"),
        ("image_print", some "https://ex.com/p.jpg"),
        ("share_license_status", some "CC0")]).images =
      [⟨some "https://ex.com/p.jpg", some "CC0"⟩] :=
  claim10_cleveland_images_replacement
    [("image_web", some "https://ex.com/w.jpg"),
      ("image_print", some "https://ex.com/p.jpg"),
      ("share_license_status", some "CC0")]
    "https://ex.com/w.jpg" "https://ex.com/p.jpg"
    ⟨some "https://ex.com/w.jpg", some "CC0"⟩
    ⟨some "https://ex.com/p.jpg", some "CC0"⟩
    rfl rfl rfl rfl

end UOAA
